import Mathlib

/-!
Verification model of the OCRPDFBase64Watcher pipeline
(`src/watcher/utils.py`, `src/watcher/ocr.py`, `src/watcher/handlers.py`).

Paths are modelled as lists of resolved components; file bytes as lists of
naturals taken modulo 256; the external world (filesystem observations, the
OCR engine, write successes) is supplied to each modelled function as
explicit oracle data, so the effectful Python code becomes pure functions.
-/

namespace Watcher

/-- A filesystem path, as its resolved components (what `Path.resolve()`
produces; `pathlib` comparisons and `relative_to` work componentwise). -/
abbrev FsPath := List String

/-- Raw file bytes. Each entry is meaningful modulo 256. -/
abbrev Bytes := List Nat

/-- `listLeq parent child`: every component of `parent` heads `child`,
i.e. `child.resolve().relative_to(parent.resolve())` succeeds. -/
def listLeq : List String → List String → Bool
  | [], _ => true
  | _ :: _, [] => false
  | a :: as, b :: bs => decide (a = b) && listLeq as bs

/-- `is_within(child, parent)` from `src/watcher/utils.py`: true iff
`child.resolve().relative_to(parent.resolve())` does not raise, i.e. the
resolved parent components lead the resolved child components. -/
def is_within (child parent : FsPath) : Bool :=
  listLeq parent child

/-- `Path.name`: the final path component. -/
def pathName (p : FsPath) : String :=
  p.getLast?.getD ""

/-- Index of the last `'.'` in a character list (`str.rfind('.')` when the
dot occurs; `none` plays the role of `-1`). -/
def lastDotIdx : List Char → Option Nat
  | [] => none
  | c :: cs =>
    match lastDotIdx cs with
    | some i => some (i + 1)
    | none => if c = '.' then some 0 else none

/-- `PurePath.suffix`: the extension from the last dot, provided that dot is
neither the first nor the last character of the name. -/
def pySuffix (name : String) : String :=
  match lastDotIdx name.data with
  | some i =>
    if 0 < i ∧ i < name.data.length - 1 then String.mk (name.data.drop i) else ""
  | none => ""

/-- `PurePath.stem`: the name with `pySuffix` stripped. -/
def pyStem (name : String) : String :=
  match lastDotIdx name.data with
  | some i =>
    if 0 < i ∧ i < name.data.length - 1 then String.mk (name.data.take i) else name
  | none => name

/-- ASCII lowering of a string (`str.lower()` on the characters we compare,
which are ASCII file suffixes). -/
def strLower (s : String) : String :=
  String.mk (s.data.map Char.toLower)

/-- `pat` heads `s` componentwise. -/
def listStarts : List Char → List Char → Bool
  | [], _ => true
  | _ :: _, [] => false
  | a :: as, b :: bs => decide (a = b) && listStarts as bs

/-- `str.endswith(suff)`. -/
def strEndsWith (s suff : String) : Bool :=
  listStarts suff.data.reverse s.data.reverse

/-! ## Readiness prober (`wait_for_file_ready`, `src/watcher/utils.py`)

One loop iteration of the Python function observes the filesystem three
times: `path.exists()`, a `pikepdf.open` attempt (when pikepdf is
importable), and `path.stat().st_size` (with `FileNotFoundError` mapped to
`-1`).  A `Poll` records the values those observations would yield at that
iteration; the retry budget fixes how many polls are consumed. -/

/-- Filesystem observations available to one iteration of the wait loop. -/
structure Poll where
  pexists : Bool
  pikeOk : Bool
  size : Int
  deriving DecidableEq, Repr

/-- Which `return` of `wait_for_file_ready` fired: the structural pikepdf
probe, the size-stability fallback, or budget exhaustion (carrying the final
`path.exists()` value that the function then returns). -/
inductive WaitOutcome where
  | readyPike : WaitOutcome
  | readyStable : WaitOutcome
  | exhausted : Bool → WaitOutcome
  deriving DecidableEq, Repr

/-- The `for _ in range(...)` body of `wait_for_file_ready`, one `Poll` per
iteration, threading `last_size` and `stable_count` exactly as the source
does: a poll at which the path does not exist just `continue`s (state
untouched); a successful pikepdf open returns immediately; a positive size
equal to `last_size` bumps `stable_count`, returning once it reaches 2;
anything else resets `stable_count` to 0; `last_size` is then set to the
observed size. An empty poll list is the exhausted budget. -/
def waitLoop (havePike : Bool) (finalExists : Bool) :
    List Poll → Int → Nat → WaitOutcome
  | [], _, _ => .exhausted finalExists
  | o :: rest, lastSize, stable =>
    if o.pexists = false then
      waitLoop havePike finalExists rest lastSize stable
    else if havePike = true ∧ o.pikeOk = true then
      .readyPike
    else if 0 < o.size ∧ o.size = lastSize then
      if 2 ≤ stable + 1 then .readyStable
      else waitLoop havePike finalExists rest o.size (stable + 1)
    else
      waitLoop havePike finalExists rest o.size 0

/-- `wait_for_file_ready(path, use_polling, retries, sleep_s)` with the
filesystem pre-sampled: `obs` holds one `Poll` per potential iteration; the
loop runs `max 1 retries` iterations starting from `last_size = -1`,
`stable_count = 0`; exhaustion returns the final `path.exists()`. -/
def wait_for_file_ready (havePike : Bool) (obs : List Poll) (retries : Nat)
    (finalExists : Bool) : WaitOutcome :=
  waitLoop havePike finalExists (obs.take (max 1 retries)) (-1) 0

/-- The boolean actually returned to the caller. -/
def waitReadyBool (w : WaitOutcome) : Bool :=
  match w with
  | .readyPike => true
  | .readyStable => true
  | .exhausted e => e

/-- A poll trace in which the file exists throughout, the structural probe
fails at every attempt, and the sizes are as given. -/
def mkPolls (sizes : List Int) : List Poll :=
  sizes.map (fun s => { pexists := true, pikeOk := false, size := s })

/-- Modelled from the spec: the wait loop as §4.1 describes it, identical to
`waitLoop` except that a poll at which the path does not exist "counts
against the budget but resets the stability counter".  The source code's
`continue` leaves the counter untouched; this variant sets it to 0. -/
def waitLoopSpecReset (havePike : Bool) (finalExists : Bool) :
    List Poll → Int → Nat → WaitOutcome
  | [], _, _ => .exhausted finalExists
  | o :: rest, lastSize, stable =>
    if o.pexists = false then
      waitLoopSpecReset havePike finalExists rest lastSize 0
    else if havePike = true ∧ o.pikeOk = true then
      .readyPike
    else if 0 < o.size ∧ o.size = lastSize then
      if 2 ≤ stable + 1 then .readyStable
      else waitLoopSpecReset havePike finalExists rest o.size (stable + 1)
    else
      waitLoopSpecReset havePike finalExists rest o.size 0

/-- Modelled from the spec: `wait_for_file_ready` under the §4.1 reset
semantics. -/
def wait_ready_spec_reset (havePike : Bool) (obs : List Poll) (retries : Nat)
    (finalExists : Bool) : WaitOutcome :=
  waitLoopSpecReset havePike finalExists (obs.take (max 1 retries)) (-1) 0

/-! ## OCR adapter (`ocr_to_bytes`, `src/watcher/ocr.py`)

The external `ocrmypdf.ocr` call has three distinguished outcomes, and the
initial `read_bytes` may itself fail; both are supplied as oracle data. -/

/-- Result of one `ocrmypdf.ocr` invocation followed by reading the scratch
output file: normal return (with the scratch file's bytes), the
`PriorOcrFoundError` exception, or any other exception. -/
inductive EngineResult where
  | success : Bytes → EngineResult
  | priorOcrFound : EngineResult
  | failure : String → EngineResult
  deriving DecidableEq, Repr

/-- `ocr_to_bytes(pdf_path, ocr_jobs, output_type)`, with the effects
pre-sampled: `readRes` is what `pdf_path.read_bytes()` yields, `avail`
whether `ocrmypdf` imported, `eng` the engine call's outcome.  Returns
`(pdf_bytes, used_original)` or the raised `RuntimeError` message. -/
def ocr_to_bytes (readRes : Except String Bytes) (avail : Bool)
    (eng : EngineResult) : Except String (Bytes × Bool) :=
  match readRes with
  | .error e => .error ("Unable to read input file: " ++ e)
  | .ok original =>
    if avail = false then .ok (original, true)
    else
      match eng with
      | .success data =>
        if data ≠ [] then .ok (data, false) else .ok (original, true)
      | .priorOcrFound => .ok (original, true)
      | .failure _ => .ok (original, true)

/-! ## Base64 (`base64.b64encode(...).decode("ascii")` in the handler)

RFC 4648 standard alphabet with `=` padding, as the Python standard library
produces; bytes are reduced modulo 256 where the source's `bytes` type makes
them so. -/

/-- The standard base64 alphabet. -/
def b64Chars : List Char :=
  "ABCDEFGHIJKLMNOPQRSTUVWXYZabcdefghijklmnopqrstuvwxyz0123456789+/".data

/-- The six-bit value `n` (taken below 64) as its alphabet character. -/
def b64Char (n : Nat) : Char :=
  b64Chars.getD n 'A'

/-- The value of an alphabet character, `none` for anything else
(including the pad `'='`). -/
def b64Val (c : Char) : Option Nat :=
  (List.range 64).find? (fun i => decide (b64Chars.getD i 'A' = c))

/-- `base64.b64encode`: three bytes become four alphabet characters; a final
one- or two-byte group is padded with `'='`. -/
def b64encodeList : Bytes → List Char
  | [] => []
  | [a] =>
    [b64Char (a % 256 / 4), b64Char (a % 256 % 4 * 16), '=', '=']
  | [a, b] =>
    [b64Char (a % 256 / 4), b64Char (a % 256 % 4 * 16 + b % 256 / 16),
      b64Char (b % 256 % 16 * 4), '=']
  | a :: b :: c :: rest =>
    b64Char (a % 256 / 4) :: b64Char (a % 256 % 4 * 16 + b % 256 / 16) ::
      b64Char (b % 256 % 16 * 4 + c % 256 / 64) :: b64Char (c % 256 % 64) ::
      b64encodeList rest

/-- `base64.b64decode` on well-formed padded input: `none` on anything the
encoder cannot produce. -/
def b64decodeList : List Char → Option Bytes
  | [] => some []
  | c1 :: c2 :: c3 :: c4 :: rest =>
    match b64Val c1, b64Val c2 with
    | some v1, some v2 =>
      if c3 = '=' then
        if c4 = '=' ∧ rest = [] then some [v1 * 4 + v2 / 16] else none
      else
        match b64Val c3 with
        | some v3 =>
          if c4 = '=' then
            if rest = [] then some [v1 * 4 + v2 / 16, v2 % 16 * 16 + v3 / 4]
            else none
          else
            match b64Val c4 with
            | some v4 =>
              (b64decodeList rest).map
                (fun t => (v1 * 4 + v2 / 16) :: (v2 % 16 * 16 + v3 / 4) ::
                  (v3 % 4 * 64 + v4) :: t)
            | none => none
        | none => none
    | _, _ => none
  | _ => none

/-- String form of the encoder (`.decode("ascii")` of the Python call). -/
def b64encodeStr (b : Bytes) : String :=
  String.mk (b64encodeList b)

/-- String form of the decoder. -/
def b64decodeStr (s : String) : Option Bytes :=
  b64decodeList s.data

theorem b64Val_b64Char : ∀ n < 64, b64Val (b64Char n) = some n := by
  decide

theorem b64Char_ne_eq : ∀ n < 64, b64Char n ≠ '=' := by
  decide

theorem b64Char_ascii : ∀ n < 64, (b64Char n).toNat < 128 := by
  decide

/-- Decoding inverts encoding, up to the modulo-256 reduction the encoder
applies (a no-op on genuine bytes). -/
theorem b64decode_b64encode (l : Bytes) :
    b64decodeList (b64encodeList l) = some (l.map (· % 256)) := by
  induction l using b64encodeList.induct with
  | case1 => rfl
  | case2 a =>
    simp only [b64encodeList, b64decodeList]
    rw [b64Val_b64Char _ (by omega), b64Val_b64Char _ (by omega)]
    simp only [List.map]
    simp
    omega
  | case3 a b =>
    simp only [b64encodeList, b64decodeList]
    rw [b64Val_b64Char _ (by omega), b64Val_b64Char _ (by omega)]
    simp only [b64Char_ne_eq _ (by omega : b % 256 % 16 * 4 < 64),
      if_false, reduceIte]
    rw [b64Val_b64Char _ (by omega)]
    simp
    omega
  | case4 a b c rest ih =>
    simp only [b64encodeList, b64decodeList]
    rw [b64Val_b64Char _ (by omega), b64Val_b64Char _ (by omega)]
    simp only [b64Char_ne_eq _
      (by omega : b % 256 % 16 * 4 + c % 256 / 64 < 64), if_false, reduceIte]
    rw [b64Val_b64Char _ (by omega)]
    simp only [b64Char_ne_eq _ (by omega : c % 256 % 64 < 64),
      if_false, reduceIte]
    rw [b64Val_b64Char _ (by omega), ih]
    simp
    omega

/-- Every character the encoder emits is ASCII. -/
theorem b64encode_ascii (l : Bytes) :
    ∀ ch ∈ b64encodeList l, ch.toNat < 128 := by
  induction l using b64encodeList.induct with
  | case1 => intro ch h; cases h
  | case2 a =>
    intro ch h
    simp only [b64encodeList, List.mem_cons, List.not_mem_nil, or_false] at h
    rcases h with h | h | h | h
    · exact h ▸ b64Char_ascii _ (by omega)
    · exact h ▸ b64Char_ascii _ (by omega)
    · exact h ▸ (by decide)
    · exact h ▸ (by decide)
  | case3 a b =>
    intro ch h
    simp only [b64encodeList, List.mem_cons, List.not_mem_nil, or_false] at h
    rcases h with h | h | h | h
    · exact h ▸ b64Char_ascii _ (by omega)
    · exact h ▸ b64Char_ascii _ (by omega)
    · exact h ▸ b64Char_ascii _ (by omega)
    · exact h ▸ (by decide)
  | case4 a b c rest ih =>
    intro ch h
    simp only [b64encodeList, List.mem_cons] at h
    rcases h with h | h | h | h | h
    · exact h ▸ b64Char_ascii _ (by omega)
    · exact h ▸ b64Char_ascii _ (by omega)
    · exact h ▸ b64Char_ascii _ (by omega)
    · exact h ▸ b64Char_ascii _ (by omega)
    · exact ih ch h

/-! ## Handler (`PdfToBase64Handler`, `src/watcher/handlers.py`)

`_handle_path` first runs the filter cascade, then the readiness gate, then
OCR, then publishes the two artifacts.  Its filesystem effects are recorded
as an operation trace; the external results it consumes (is-dir check,
readiness, OCR, whether each fallible write succeeds) arrive as oracle
data in a `TaskEnv`. -/

/-- What a written file holds: raw bytes (`write_bytes`) or text
(`write_text`). -/
inductive Content where
  | bytes : Bytes → Content
  | text : String → Content
  deriving DecidableEq, Repr

/-- One filesystem effect of the publication phase, in program order. -/
inductive Op where
  | writeTmp : FsPath → Content → Op
  | replace : FsPath → FsPath → Op
  | mkdirp : FsPath → Op
  deriving DecidableEq, Repr

/-- How `_handle_path` ended, one constructor per `return`/exit point. -/
inductive TaskOutcome where
  | skippedDirOrSuffix : TaskOutcome
  | skippedOcrName : TaskOutcome
  | skippedUnderOutput : TaskOutcome
  | notReady : TaskOutcome
  | failed : String → TaskOutcome
  | published : Bool → TaskOutcome
  deriving DecidableEq, Repr

/-- The two configuration fields `_handle_path` consults. -/
structure HandlerCfg where
  input_dir : FsPath
  output_dir : FsPath
  deriving DecidableEq, Repr

/-- Oracle data for one task run: what the effectful calls inside
`_handle_path` would yield. `pdfWriteOk` covers the inner
`try: write_bytes; os.replace` pair (on failure nothing lands and the
exception is swallowed); `b64WriteOk` covers the base64 `write_text`/replace
pair (on failure the outer handler logs the exception and the task ends). -/
structure TaskEnv where
  isDir : Bool
  ready : Bool
  ocrRes : Except String (Bytes × Bool)
  pdfWriteOk : Bool
  b64WriteOk : Bool

/-- Final-artifact names: `f"{path.stem}_ocr.pdf"` and
`f"{path.stem}.base64"`. -/
def pdfArtifactName (path : FsPath) : String :=
  pyStem (pathName path) ++ "_ocr.pdf"

def b64ArtifactName (path : FsPath) : String :=
  pyStem (pathName path) ++ ".base64"

/-- `out.with_suffix(out.suffix + ".tmp")` on the artifact names above
(whose suffixes are `".pdf"` and `".base64"`) appends `".tmp"`. -/
def pdfArtifact (cfg : HandlerCfg) (path : FsPath) : FsPath :=
  cfg.output_dir ++ [pdfArtifactName path]

def pdfArtifactTmp (cfg : HandlerCfg) (path : FsPath) : FsPath :=
  cfg.output_dir ++ [pdfArtifactName path ++ ".tmp"]

def b64Artifact (cfg : HandlerCfg) (path : FsPath) : FsPath :=
  cfg.output_dir ++ [b64ArtifactName path]

def b64ArtifactTmp (cfg : HandlerCfg) (path : FsPath) : FsPath :=
  cfg.output_dir ++ [b64ArtifactName path ++ ".tmp"]

/-- `PdfToBase64Handler._handle_path`, returning its exit point and the
filesystem operations it performed, in order. -/
def handle_path (cfg : HandlerCfg) (path : FsPath) (env : TaskEnv) :
    TaskOutcome × List Op :=
  if env.isDir = true ∨ strLower (pySuffix (pathName path)) ≠ ".pdf" then
    (.skippedDirOrSuffix, [])
  else if strEndsWith (pathName path) "_ocr.pdf" = true
      ∨ strEndsWith (pathName path) ".ocr.pdf" = true then
    (.skippedOcrName, [])
  else if cfg.output_dir ≠ cfg.input_dir
      ∧ is_within path cfg.output_dir = true then
    (.skippedUnderOutput, [])
  else if env.ready = false then
    (.notReady, [])
  else
    match env.ocrRes with
    | .error e => (.failed e, [])
    | .ok (pdfBytes, usedOriginal) =>
      let pdfOps : List Op :=
        if env.pdfWriteOk = true then
          [.writeTmp (pdfArtifactTmp cfg path) (.bytes pdfBytes),
           .replace (pdfArtifactTmp cfg path) (pdfArtifact cfg path)]
        else []
      if env.b64WriteOk = true then
        (.published usedOriginal,
          pdfOps ++
            [.mkdirp cfg.output_dir,
             .writeTmp (b64ArtifactTmp cfg path)
               (.text (b64encodeStr pdfBytes)),
             .replace (b64ArtifactTmp cfg path) (b64Artifact cfg path)])
      else
        (.failed "base64 write failed", pdfOps ++ [.mkdirp cfg.output_dir])

/-! A small interpreter for `Op` traces, to read off which final files exist
with which content after a task. -/

/-- Association list of files: first binding wins. -/
def lookupFile : List (FsPath × Content) → FsPath → Option Content
  | [], _ => none
  | e :: fs, p => if e.1 = p then some e.2 else lookupFile fs p

def removeFile : List (FsPath × Content) → FsPath → List (FsPath × Content)
  | [], _ => []
  | e :: fs, p => if e.1 = p then removeFile fs p else e :: removeFile fs p

/-- Effect of one operation on the file map: a tmp write lands its content,
`os.replace` atomically moves a file over its destination, `mkdir` touches
no file. -/
def applyOp (fs : List (FsPath × Content)) : Op → List (FsPath × Content)
  | .writeTmp p c => (p, c) :: removeFile fs p
  | .replace src dst =>
    match lookupFile fs src with
    | some c => (dst, c) :: removeFile (removeFile fs src) dst
    | none => fs
  | .mkdirp _ => fs

def runOps (ops : List Op) (fs : List (FsPath × Content)) :
    List (FsPath × Content) :=
  ops.foldl applyOp fs

/-! ## Dispatcher (`submit_path` and the worker task,
`src/watcher/handlers.py`) -/

/-- The dispatcher's shared state: the guarded in-flight set, plus the
(ghost) list of work units handed to the executor, in submission order. -/
structure DispatcherState where
  inFlight : Finset FsPath
  scheduled : List FsPath

/-- `PdfToBase64Handler.submit_path`: check-and-insert under the lock; a
path already in flight is dropped, otherwise it is inserted and one work
unit is scheduled on the pool. -/
def submit_path (s : DispatcherState) (p : FsPath) : DispatcherState :=
  if p ∈ s.inFlight then s
  else { inFlight := insert p s.inFlight, scheduled := s.scheduled ++ [p] }

/-- `n` successive `submit_path` calls for the same path. -/
def submitN (n : Nat) (s : DispatcherState) (p : FsPath) : DispatcherState :=
  match n with
  | 0 => s
  | n + 1 => submitN n (submit_path s p) p

/-- The `_task` closure: run `_handle_path`, and in the `finally` discard
the path from the in-flight set — whatever the outcome was. -/
def run_task (cfg : HandlerCfg) (s : DispatcherState) (p : FsPath)
    (env : TaskEnv) : DispatcherState × TaskOutcome × List Op :=
  ({ s with inFlight := s.inFlight.erase p }, handle_path cfg p env)

/-- Whether an operation is the directory creation. -/
def isMkdirOp : Op → Bool
  | .mkdirp _ => true
  | _ => false

/-! ## Claims -/

/-- C1.  Deduplication: a `submit_path` call for a path already in the
in-flight set leaves the dispatcher state unchanged — same set, no new work
unit scheduled — and so does any number of repeated submissions of that path
while it stays in flight: at most the one already-scheduled task for it
exists. -/
theorem submit_dedup (s : DispatcherState) (p : FsPath)
    (h : p ∈ s.inFlight) :
    submit_path s p = s ∧ ∀ n, submitN n s p = s := by
  have h1 : submit_path s p = s := by simp [submit_path, h]
  refine ⟨h1, fun n => ?_⟩
  induction n with
  | zero => rfl
  | succ n ih => simpa [submitN, h1] using ih

theorem submit_dedup_witness :
    submit_path ⟨{["in", "f.pdf"]}, []⟩ ["in", "f.pdf"]
        = ⟨{["in", "f.pdf"]}, []⟩ ∧
      submitN 3 ⟨{["in", "f.pdf"]}, []⟩ ["in", "f.pdf"]
        = ⟨{["in", "f.pdf"]}, []⟩ :=
  have h := submit_dedup ⟨{["in", "f.pdf"]}, []⟩ ["in", "f.pdf"] (by simp)
  ⟨h.1, h.2 3⟩

/-- C2.  Release: whatever the task's outcome (any oracle data, hence any
filter, readiness, OCR or write result), completing the work unit removes
the path from the in-flight set; no other path's membership changes; and a
subsequent submission of the same path is admitted again (inserted and
scheduled). -/
theorem task_release (cfg : HandlerCfg) (s : DispatcherState) (p : FsPath)
    (env : TaskEnv) :
    p ∉ (run_task cfg s p env).1.inFlight ∧
      (∀ q, q ≠ p →
        ((q ∈ (run_task cfg s p env).1.inFlight) ↔ q ∈ s.inFlight)) ∧
      submit_path (run_task cfg s p env).1 p =
        { inFlight := insert p (s.inFlight.erase p),
          scheduled := s.scheduled ++ [p] } := by
  refine ⟨Finset.not_mem_erase p s.inFlight, fun q hq => ?_, ?_⟩
  · simp [run_task, Finset.mem_erase, hq]
  · simp [run_task, submit_path, Finset.not_mem_erase]

theorem task_release_witness :
    (["in", "f.pdf"] : FsPath) ∉
        (run_task ⟨["in"], ["out"]⟩ ⟨{["in", "f.pdf"]}, []⟩ ["in", "f.pdf"]
          ⟨false, true, .error "boom", true, true⟩).1.inFlight ∧
      ((["in", "g.pdf"] : FsPath) ∈
          (run_task ⟨["in"], ["out"]⟩ ⟨{["in", "f.pdf"]}, []⟩ ["in", "f.pdf"]
            ⟨false, true, .error "boom", true, true⟩).1.inFlight ↔
        (["in", "g.pdf"] : FsPath) ∈
          ({["in", "f.pdf"]} : Finset FsPath)) :=
  have h := task_release ⟨["in"], ["out"]⟩ ⟨{["in", "f.pdf"]}, []⟩
    ["in", "f.pdf"] ⟨false, true, .error "boom", true, true⟩
  ⟨h.1, h.2.1 ["in", "g.pdf"] (by simp)⟩

/-- C3.  OCR outcome mapping: on a readable input, `ocr_to_bytes` falls back
to the original bytes with `used_original = true` when the engine is
unavailable, raises `PriorOcrFoundError`, raises anything else, or returns
empty output; and it yields the engine's bytes with `used_original = false`
exactly when the engine succeeds with non-empty output. -/
theorem ocr_outcome_mapping (original : Bytes) (avail : Bool)
    (eng : EngineResult) :
    (avail = false →
        ocr_to_bytes (.ok original) avail eng = .ok (original, true)) ∧
      ocr_to_bytes (.ok original) true .priorOcrFound = .ok (original, true) ∧
      (∀ m, ocr_to_bytes (.ok original) true (.failure m)
        = .ok (original, true)) ∧
      ocr_to_bytes (.ok original) true (.success []) = .ok (original, true) ∧
      (∀ d, d ≠ [] →
        ocr_to_bytes (.ok original) true (.success d) = .ok (d, false)) ∧
      (∀ d, ocr_to_bytes (.ok original) avail eng = .ok (d, false) →
        avail = true ∧ eng = .success d ∧ d ≠ []) := by
  refine ⟨?_, ?_, ?_, ?_, ?_, ?_⟩
  · intro h; subst h; simp [ocr_to_bytes]
  · simp [ocr_to_bytes]
  · intro m; simp [ocr_to_bytes]
  · simp [ocr_to_bytes]
  · intro d hd; simp [ocr_to_bytes, hd]
  · intro d h
    cases avail with
    | false => simp [ocr_to_bytes] at h
    | true =>
      cases eng with
      | success data =>
        by_cases hd : data = []
        · subst hd; simp [ocr_to_bytes] at h
        · simp [ocr_to_bytes, hd] at h
          exact ⟨rfl, by rw [h], by rw [← h]; exact hd⟩
      | priorOcrFound => simp [ocr_to_bytes] at h
      | failure m => simp [ocr_to_bytes] at h

/-- Helper: a run over polls whose sizes change at every step keeps the
stability counter at zero, and three trailing equal positive sizes reach the
`stable_count >= 2` return. -/
lemma waitLoop_stable_three (hp fe : Bool) (s : Int) (hs : 0 < s) :
    ∀ (g : List Int) (last : Int),
      List.Chain' (· ≠ ·) (last :: (g ++ [s])) →
      waitLoop hp fe (mkPolls (g ++ [s, s, s])) last 0 = .readyStable := by
  intro g
  induction g with
  | nil =>
    intro last hch
    simp only [List.nil_append, List.chain'_cons, List.chain'_singleton,
      and_true] at hch
    have hne : ¬(s = last) := fun hc => hch hc.symm
    simp [mkPolls, waitLoop, hs, hne]
  | cons x g ih =>
    intro last hch
    rw [List.cons_append, List.chain'_cons] at hch
    obtain ⟨h1, h2⟩ := hch
    have hne : ¬(x = last) := fun hc => h1 hc.symm
    have step : waitLoop hp fe (mkPolls ((x :: g) ++ [s, s, s])) last 0
        = waitLoop hp fe (mkPolls (g ++ [s, s, s])) x 0 := by
      simp [mkPolls, waitLoop, hne]
    rw [step]
    exact ih x h2

/-- Helper: with only two trailing equal sizes the loop runs out of budget
instead (the counter reaches 1, not 2). -/
lemma waitLoop_stable_two (hp fe : Bool) (s : Int) (hs : 0 < s) :
    ∀ (g : List Int) (last : Int),
      List.Chain' (· ≠ ·) (last :: (g ++ [s])) →
      waitLoop hp fe (mkPolls (g ++ [s, s])) last 0 = .exhausted fe := by
  intro g
  induction g with
  | nil =>
    intro last hch
    simp only [List.nil_append, List.chain'_cons, List.chain'_singleton,
      and_true] at hch
    have hne : ¬(s = last) := fun hc => hch hc.symm
    simp [mkPolls, waitLoop, hs, hne]
  | cons x g ih =>
    intro last hch
    rw [List.cons_append, List.chain'_cons] at hch
    obtain ⟨h1, h2⟩ := hch
    have hne : ¬(x = last) := fun hc => h1 hc.symm
    have step : waitLoop hp fe (mkPolls ((x :: g) ++ [s, s])) last 0
        = waitLoop hp fe (mkPolls (g ++ [s, s])) x 0 := by
      simp [mkPolls, waitLoop, hne]
    rw [step]
    exact ih x h2

/-- C6.  Size-stability readiness: with the structural probe unavailable or
failing at every poll and the file existing throughout, a size trace that
changes at every poll and then holds a positive value `s` is reported ready
via the stability fallback exactly after two consecutive stable-size polls
following the last change (three observations of `s`); with only one stable
poll after the change (two observations) the budget runs out instead. -/
theorem stability_fallback_readiness (hp fe : Bool) (g : List Int) (s : Int)
    (hs : 0 < s) (hch : List.Chain' (· ≠ ·) ((-1 : Int) :: (g ++ [s]))) :
    wait_for_file_ready hp (mkPolls (g ++ [s, s, s])) (g.length + 3) fe
        = .readyStable ∧
      waitReadyBool
        (wait_for_file_ready hp (mkPolls (g ++ [s, s, s]))
          (g.length + 3) fe) = true ∧
      wait_for_file_ready hp (mkPolls (g ++ [s, s])) (g.length + 2) fe
        = .exhausted fe := by
  have hlen3 : (mkPolls (g ++ [s, s, s])).length = g.length + 3 := by
    simp [mkPolls]
  have hlen2 : (mkPolls (g ++ [s, s])).length = g.length + 2 := by
    simp [mkPolls]
  have h3 : wait_for_file_ready hp (mkPolls (g ++ [s, s, s]))
      (g.length + 3) fe = .readyStable := by
    unfold wait_for_file_ready
    rw [Nat.max_eq_right (by omega), ← hlen3, List.take_length]
    exact waitLoop_stable_three hp fe s hs g (-1) hch
  refine ⟨h3, by rw [h3]; rfl, ?_⟩
  unfold wait_for_file_ready
  rw [Nat.max_eq_right (by omega), ← hlen2, List.take_length]
  exact waitLoop_stable_two hp fe s hs g (-1) hch

theorem stability_fallback_readiness_witness :
    wait_for_file_ready false (mkPolls [0, 250, 500, 500, 500]) 5 true
        = .readyStable ∧
      wait_for_file_ready false (mkPolls [0, 250, 500, 500]) 4 true
        = .exhausted true :=
  have h := stability_fallback_readiness false true [0, 250] 500
    (by decide) (by simp [List.chain'_cons])
  ⟨h.1, h.2.2⟩

/-- C7 counterexample: the claim (and spec §4.1) says a poll at which the
path does not exist resets the stability counter.  On the trace
(size 5, size 5, gone, size 5) the source code returns ready via the
stability fallback at the fourth poll — the counter survived the missing
poll — while the reset semantics modelled from the spec exhausts the budget
and returns the final `path.exists()` value `false`. -/
theorem nonexist_poll_reset_cex :
    wait_for_file_ready false
        [⟨true, false, 5⟩, ⟨true, false, 5⟩, ⟨false, false, 0⟩,
          ⟨true, false, 5⟩] 4 false = .readyStable ∧
      wait_ready_spec_reset false
        [⟨true, false, 5⟩, ⟨true, false, 5⟩, ⟨false, false, 0⟩,
          ⟨true, false, 5⟩] 4 false = .exhausted false ∧
      wait_for_file_ready false
          [⟨true, false, 5⟩, ⟨true, false, 5⟩, ⟨false, false, 0⟩,
            ⟨true, false, 5⟩] 4 false ≠
        wait_ready_spec_reset false
          [⟨true, false, 5⟩, ⟨true, false, 5⟩, ⟨false, false, 0⟩,
            ⟨true, false, 5⟩] 4 false := by
  decide

/-- C7 (amended).  A poll at which the path does not exist consumes one
attempt of the budget but leaves the stability counter and the last
observed size unchanged; once the budget is exhausted the function returns
whatever `path.exists()` reports at that moment (no exception path
exists). -/
theorem nonexist_poll_budget (hp fe : Bool) (o : Poll) (rest : List Poll)
    (last : Int) (st : Nat) (h : o.pexists = false) :
    waitLoop hp fe (o :: rest) last st = waitLoop hp fe rest last st ∧
      waitLoop hp fe [] last st = .exhausted fe := by
  exact ⟨by simp [waitLoop, h], rfl⟩

theorem nonexist_poll_budget_witness :
    waitLoop false true [⟨false, false, 0⟩, ⟨true, false, 7⟩] (-1) 0
        = waitLoop false true [⟨true, false, 7⟩] (-1) 0 ∧
      waitLoop false true [] (-1) 0 = .exhausted true :=
  nonexist_poll_budget false true ⟨false, false, 0⟩ [⟨true, false, 7⟩]
    (-1) 0 rfl

/-- Helper for C10: polls that always observe size 0 (with the structural
probe failing) can never fire either ready return. -/
lemma waitLoop_zero_sizes (hp fe : Bool) :
    ∀ (obs : List Poll) (last : Int) (st : Nat),
      (∀ o ∈ obs, o.size = 0 ∧ o.pikeOk = false) →
      waitLoop hp fe obs last st = .exhausted fe := by
  intro obs
  induction obs with
  | nil => intro last st _; rfl
  | cons o rest ih =>
    intro last st h
    obtain ⟨hsz, hpk⟩ := h o (List.mem_cons_self o rest)
    have hrest := fun o' ho' => h o' (List.mem_cons_of_mem o ho')
    by_cases hex : o.pexists = false
    · simp only [waitLoop, if_pos hex]
      exact ih last st hrest
    · simp only [waitLoop, if_neg hex]
      rw [if_neg (by simp [hpk]), if_neg (by simp [hsz])]
      exact ih o.size 0 hrest

/-- C10.  A file observed with size 0 at every poll is never reported ready
by the size-stability fallback (stability requires a strictly positive
size); with the structural probe failing, the only way the function reports
the file ready is the budget-exhaustion `path.exists()` return. -/
theorem zero_size_never_stable (hp fe : Bool) (obs : List Poll) (r : Nat)
    (h : ∀ o ∈ obs, o.size = 0 ∧ o.pikeOk = false) :
    wait_for_file_ready hp obs r fe = .exhausted fe ∧
      waitReadyBool (wait_for_file_ready hp obs r fe) = fe := by
  have hz : wait_for_file_ready hp obs r fe = .exhausted fe := by
    unfold wait_for_file_ready
    exact waitLoop_zero_sizes hp fe _ (-1) 0
      (fun o ho => h o (List.take_subset _ _ ho))
  exact ⟨hz, by rw [hz]; rfl⟩

theorem zero_size_never_stable_witness :
    wait_for_file_ready true (mkPolls [0, 0, 0]) 3 false
        = .exhausted false ∧
      waitReadyBool (wait_for_file_ready true (mkPolls [0, 0, 0]) 3 false)
        = false :=
  zero_size_never_stable true false (mkPolls [0, 0, 0]) 3 (by decide)

theorem ocr_outcome_mapping_witness :
    ocr_to_bytes (.ok [1, 2]) false (.success [3]) = .ok ([1, 2], true) ∧
      ocr_to_bytes (.ok [1, 2]) true (.failure "err") = .ok ([1, 2], true) ∧
      ocr_to_bytes (.ok [1, 2]) true (.success [3]) = .ok ([3], false) :=
  have h1 := ocr_outcome_mapping [1, 2] false (.success [3])
  have h2 := ocr_outcome_mapping [1, 2] true (.failure "err")
  have h3 := ocr_outcome_mapping [1, 2] true (.success [3])
  ⟨h1.1 rfl, (h2.2.2.1) "err", h3.2.2.2.2.1 [3] (by decide)⟩

/-- C5.  Unreadable input is a hard task error: `ocr_to_bytes` returns a
raised error exactly when reading the original bytes failed; a task whose
OCR call raised writes no filesystem operation at all (so neither artifact),
ends at the logged-failure exit, and is still released from the in-flight
set. -/
theorem unreadable_input_hard_error
    (readRes : Except String Bytes) (avail : Bool) (eng : EngineResult)
    (cfg : HandlerCfg) (s : DispatcherState) (p : FsPath) (env : TaskEnv)
    (e : String) (herr : env.ocrRes = .error e)
    (hdir : env.isDir = false)
    (hsuf : strLower (pySuffix (pathName p)) = ".pdf")
    (hn1 : strEndsWith (pathName p) "_ocr.pdf" = false)
    (hn2 : strEndsWith (pathName p) ".ocr.pdf" = false)
    (hout : ¬(cfg.output_dir ≠ cfg.input_dir
      ∧ is_within p cfg.output_dir = true))
    (hready : env.ready = true) :
    ((∃ m, ocr_to_bytes readRes avail eng = .error m) ↔
        ∃ m, readRes = .error m) ∧
      handle_path cfg p env = (.failed e, []) ∧
      p ∉ (run_task cfg s p env).1.inFlight := by
  refine ⟨⟨?_, ?_⟩, ?_, Finset.not_mem_erase p s.inFlight⟩
  · rintro ⟨m, hm⟩
    cases readRes with
    | error e' => exact ⟨e', rfl⟩
    | ok orig =>
      exfalso
      cases avail with
      | false => simp [ocr_to_bytes] at hm
      | true =>
        cases eng with
        | success data =>
          by_cases hd : data = []
          · subst hd; simp [ocr_to_bytes] at hm
          · simp [ocr_to_bytes, hd] at hm
        | priorOcrFound => simp [ocr_to_bytes] at hm
        | failure m2 => simp [ocr_to_bytes] at hm
  · rintro ⟨m, hm⟩
    exact ⟨"Unable to read input file: " ++ m, by rw [hm]; rfl⟩
  · simp [handle_path, hdir, hsuf, hn1, hn2, hout, hready, herr]

theorem unreadable_input_hard_error_witness :
    (∃ m, ocr_to_bytes (.error "io") true .priorOcrFound = .error m) ∧
      handle_path ⟨["in"], ["out"]⟩ ["in", "a.pdf"]
          ⟨false, true, .error "boom", true, true⟩
        = (.failed "boom", []) ∧
      (["in", "a.pdf"] : FsPath) ∉
        (run_task ⟨["in"], ["out"]⟩ ⟨{["in", "a.pdf"]}, []⟩ ["in", "a.pdf"]
          ⟨false, true, .error "boom", true, true⟩).1.inFlight :=
  have h := unreadable_input_hard_error (.error "io") true .priorOcrFound
    ⟨["in"], ["out"]⟩ ⟨{["in", "a.pdf"]}, []⟩ ["in", "a.pdf"]
    ⟨false, true, .error "boom", true, true⟩ "boom" rfl rfl (by decide)
    (by decide) (by decide) (by decide) rfl
  ⟨h.1.mpr ⟨"io", rfl⟩, h.2.1, h.2.2⟩

/-- C8.  Loop prevention: when the configured output directory differs from
the input directory, a submitted path lying under the output directory
triggers no filesystem operation and is never published; when the two
directories coincide, the under-output-directory check never fires (no task
exits through it). -/
theorem loop_prevention (cfg : HandlerCfg) (path : FsPath) (env : TaskEnv) :
    (cfg.output_dir ≠ cfg.input_dir → is_within path cfg.output_dir = true →
      (handle_path cfg path env).2 = [] ∧
        ∀ u, (handle_path cfg path env).1 ≠ .published u) ∧
      (cfg.output_dir = cfg.input_dir →
        (handle_path cfg path env).1 ≠ .skippedUnderOutput) := by
  constructor
  · intro hne hwithin
    have hc : cfg.output_dir ≠ cfg.input_dir
        ∧ is_within path cfg.output_dir = true := ⟨hne, hwithin⟩
    unfold handle_path
    split
    · exact ⟨rfl, by simp⟩
    · split
      · exact ⟨rfl, by simp⟩
      · exact ⟨rfl, by simp⟩
  · intro heq
    have h3 : ¬(cfg.output_dir ≠ cfg.input_dir
        ∧ is_within path cfg.output_dir = true) := fun hc => hc.1 heq
    unfold handle_path
    split
    · simp
    · split
      · simp
      · split
        · simp
        · split
          · simp
          · split <;> split <;> simp

theorem loop_prevention_witness :
    ((handle_path ⟨["in"], ["in", "base64"]⟩ ["in", "base64", "x.pdf"]
          ⟨false, true, .ok ([1], false), true, true⟩).2 = [] ∧
        ∀ u, (handle_path ⟨["in"], ["in", "base64"]⟩ ["in", "base64", "x.pdf"]
          ⟨false, true, .ok ([1], false), true, true⟩).1 ≠ .published u) ∧
      (handle_path ⟨["in"], ["in"]⟩ ["in", "x.pdf"]
        ⟨false, true, .ok ([1], false), true, true⟩).1 ≠ .skippedUnderOutput :=
  have h1 := loop_prevention ⟨["in"], ["in", "base64"]⟩
    ["in", "base64", "x.pdf"] ⟨false, true, .ok ([1], false), true, true⟩
  have h2 := loop_prevention ⟨["in"], ["in"]⟩ ["in", "x.pdf"]
    ⟨false, true, .ok ([1], false), true, true⟩
  ⟨h1.1 (by decide) (by decide), h2.2 rfl⟩

/-- C9 counterexample: on a concrete published task the operation trace is
PDF-tmp write, PDF rename, `mkdir`, base64-tmp write, base64 rename — the
single `mkdir` happens *after* the `_ocr.pdf` artifact write, so the output
directory is not created before each of the two writes as claimed (only
before the `.base64` one). -/
theorem mkdir_before_each_write_cex :
    (handle_path ⟨["in"], ["out"]⟩ ["in", "a.pdf"]
        ⟨false, true, .ok ([1], false), true, true⟩).2
      = [.writeTmp ["out", "a_ocr.pdf.tmp"] (.bytes [1]),
         .replace ["out", "a_ocr.pdf.tmp"] ["out", "a_ocr.pdf"],
         .mkdirp ["out"],
         .writeTmp ["out", "a.base64.tmp"] (.text "AQ=="),
         .replace ["out", "a.base64.tmp"] ["out", "a.base64"]] ∧
      ((handle_path ⟨["in"], ["out"]⟩ ["in", "a.pdf"]
          ⟨false, true, .ok ([1], false), true, true⟩).2.take 2).all
        (fun o => !isMkdirOp o) = true := by
  decide

/-- C9 (amended).  For every task that reaches publication with both writes
succeeding, the output directory is created (idempotently, with parents)
exactly once, after the `_ocr.pdf` artifact write and rename and before the
`.base64` write and rename — not before the PDF write. -/
theorem mkdir_once_between_writes (cfg : HandlerCfg) (path : FsPath)
    (env : TaskEnv) (pb : Bytes) (u : Bool)
    (hdir : env.isDir = false)
    (hsuf : strLower (pySuffix (pathName path)) = ".pdf")
    (hn1 : strEndsWith (pathName path) "_ocr.pdf" = false)
    (hn2 : strEndsWith (pathName path) ".ocr.pdf" = false)
    (hout : ¬(cfg.output_dir ≠ cfg.input_dir
      ∧ is_within path cfg.output_dir = true))
    (hready : env.ready = true)
    (hocr : env.ocrRes = .ok (pb, u))
    (hw1 : env.pdfWriteOk = true) (hw2 : env.b64WriteOk = true) :
    (handle_path cfg path env).2
      = [.writeTmp (pdfArtifactTmp cfg path) (.bytes pb),
         .replace (pdfArtifactTmp cfg path) (pdfArtifact cfg path),
         .mkdirp cfg.output_dir,
         .writeTmp (b64ArtifactTmp cfg path) (.text (b64encodeStr pb)),
         .replace (b64ArtifactTmp cfg path) (b64Artifact cfg path)] := by
  simp [handle_path, hdir, hsuf, hn1, hn2, hout, hready, hocr, hw1, hw2]

/-- Helper: appending distinct strings to a common stem yields distinct
strings. -/
lemma string_append_right_ne (s a b : String) (h : a ≠ b) :
    s ++ a ≠ s ++ b := by
  intro hc
  apply h
  have hd := congrArg String.data hc
  simp only [String.data_append] at hd
  exact String.ext (List.append_cancel_left hd)

/-- Helper: the final PDF artifact path never collides with the base64
temporary path. -/
lemma pdfArtifact_ne_b64Tmp (cfg : HandlerCfg) (path : FsPath) :
    pdfArtifact cfg path ≠ b64ArtifactTmp cfg path := by
  intro hc
  simp only [pdfArtifact, b64ArtifactTmp, pdfArtifactName, b64ArtifactName]
    at hc
  have h1 := List.append_cancel_left hc
  simp only [List.cons.injEq, and_true] at h1
  rw [String.append_assoc] at h1
  exact string_append_right_ne (pyStem (pathName path)) "_ocr.pdf"
    (".base64" ++ ".tmp") (by decide) h1

/-- Helper: the two final artifact paths are distinct. -/
lemma pdfArtifact_ne_b64 (cfg : HandlerCfg) (path : FsPath) :
    pdfArtifact cfg path ≠ b64Artifact cfg path := by
  intro hc
  simp only [pdfArtifact, b64Artifact, pdfArtifactName, b64ArtifactName]
    at hc
  have h1 := List.append_cancel_left hc
  simp only [List.cons.injEq, and_true] at h1
  exact string_append_right_ne (pyStem (pathName path)) "_ocr.pdf"
    ".base64" (by decide) h1

/-- Helper: reducing genuine bytes modulo 256 changes nothing. -/
lemma map_mod_eq_self : ∀ (l : Bytes), (∀ b ∈ l, b < 256) →
    l.map (fun b => b % 256) = l := by
  intro l
  induction l with
  | nil => intro _; rfl
  | cons x xs ih =>
    intro h
    simp only [List.map_cons]
    rw [Nat.mod_eq_of_lt (h x (List.mem_cons_self x xs)),
      ih (fun b hb => h b (List.mem_cons_of_mem x hb))]

/-- C4.  Artifact-pair round trip: a task that publishes both artifacts
leaves `<stem>_ocr.pdf` holding exactly the OCR adapter's bytes and
`<stem>.base64` holding their base64 encoding as ASCII text, and decoding
that text recovers the `_ocr.pdf` bytes. -/
theorem artifact_pair_roundtrip (cfg : HandlerCfg) (path : FsPath)
    (env : TaskEnv) (pb : Bytes) (u : Bool)
    (hdir : env.isDir = false)
    (hsuf : strLower (pySuffix (pathName path)) = ".pdf")
    (hn1 : strEndsWith (pathName path) "_ocr.pdf" = false)
    (hn2 : strEndsWith (pathName path) ".ocr.pdf" = false)
    (hout : ¬(cfg.output_dir ≠ cfg.input_dir
      ∧ is_within path cfg.output_dir = true))
    (hready : env.ready = true)
    (hocr : env.ocrRes = .ok (pb, u))
    (hw1 : env.pdfWriteOk = true) (hw2 : env.b64WriteOk = true)
    (hbytes : ∀ b ∈ pb, b < 256) :
    lookupFile (runOps (handle_path cfg path env).2 [])
        (pdfArtifact cfg path) = some (.bytes pb) ∧
      lookupFile (runOps (handle_path cfg path env).2 [])
        (b64Artifact cfg path) = some (.text (b64encodeStr pb)) ∧
      b64decodeStr (b64encodeStr pb) = some pb ∧
      ∀ ch ∈ (b64encodeStr pb).data, ch.toNat < 128 := by
  have hops : (handle_path cfg path env).2
      = [.writeTmp (pdfArtifactTmp cfg path) (.bytes pb),
         .replace (pdfArtifactTmp cfg path) (pdfArtifact cfg path),
         .mkdirp cfg.output_dir,
         .writeTmp (b64ArtifactTmp cfg path) (.text (b64encodeStr pb)),
         .replace (b64ArtifactTmp cfg path) (b64Artifact cfg path)] := by
    simp [handle_path, hdir, hsuf, hn1, hn2, hout, hready, hocr, hw1, hw2]
  have hABt := pdfArtifact_ne_b64Tmp cfg path
  have hAB := pdfArtifact_ne_b64 cfg path
  rw [hops]
  refine ⟨?_, ?_, ?_, ?_⟩
  · simp [runOps, applyOp, lookupFile, removeFile, hABt, hAB, Ne.symm hAB]
  · simp [runOps, applyOp, lookupFile, removeFile, hABt, hAB, Ne.symm hAB]
  · show b64decodeStr (b64encodeStr pb) = some pb
    unfold b64decodeStr b64encodeStr
    rw [show (String.mk (b64encodeList pb)).data = b64encodeList pb from rfl]
    rw [b64decode_b64encode, map_mod_eq_self pb hbytes]
  · intro ch hch
    exact b64encode_ascii pb ch hch

theorem artifact_pair_roundtrip_witness :
    lookupFile
        (runOps (handle_path ⟨["in"], ["in", "base64"]⟩ ["in", "report.pdf"]
          ⟨false, true, .ok ([9, 8, 7], false), true, true⟩).2 [])
        (pdfArtifact ⟨["in"], ["in", "base64"]⟩ ["in", "report.pdf"])
      = some (.bytes [9, 8, 7]) ∧
      lookupFile
          (runOps (handle_path ⟨["in"], ["in", "base64"]⟩ ["in", "report.pdf"]
            ⟨false, true, .ok ([9, 8, 7], false), true, true⟩).2 [])
          (b64Artifact ⟨["in"], ["in", "base64"]⟩ ["in", "report.pdf"])
        = some (.text (b64encodeStr [9, 8, 7])) ∧
      b64decodeStr (b64encodeStr [9, 8, 7]) = some [9, 8, 7] ∧
      ∀ ch ∈ (b64encodeStr [9, 8, 7]).data, ch.toNat < 128 :=
  artifact_pair_roundtrip ⟨["in"], ["in", "base64"]⟩ ["in", "report.pdf"]
    ⟨false, true, .ok ([9, 8, 7], false), true, true⟩ [9, 8, 7] false
    rfl (by decide) (by decide) (by decide) (by decide) rfl rfl rfl rfl
    (by decide)

theorem mkdir_once_between_writes_witness :
    (handle_path ⟨["in"], ["in", "base64"]⟩ ["in", "report.pdf"]
        ⟨false, true, .ok ([9, 8, 7], false), true, true⟩).2
      = [.writeTmp ["in", "base64", "report_ocr.pdf.tmp"] (.bytes [9, 8, 7]),
         .replace ["in", "base64", "report_ocr.pdf.tmp"]
           ["in", "base64", "report_ocr.pdf"],
         .mkdirp ["in", "base64"],
         .writeTmp ["in", "base64", "report.base64.tmp"] (.text "CQgH"),
         .replace ["in", "base64", "report.base64.tmp"]
           ["in", "base64", "report.base64"]] :=
  mkdir_once_between_writes ⟨["in"], ["in", "base64"]⟩ ["in", "report.pdf"]
    ⟨false, true, .ok ([9, 8, 7], false), true, true⟩ [9, 8, 7] false
    rfl (by decide) (by decide) (by decide) (by decide) rfl rfl rfl rfl

end Watcher
